import Mathlib

/-
Formal model of the search → extract → aggregate → report pipeline of the
crewAi scripts (src/crewAi/tools/googlesearch.py, src/crewAi/tools/webextractor.py,
src/crewAi/main.py), as a shallow embedding.

Conventions of the embedding:
* Python strings are `List Char` (`Str`), so slicing `s[:n]` is `List.take n`
  and `len` is `List.length`.
* The JSON-object records passed between the tools and `run_workflow` have a
  fixed key schema; they are embedded as structures whose fields are `Option`s:
  `none` means the key is absent from the dict, `some v` that it is present
  with value `v`.  `dict.get(k, d)` is `Option.getD`, `k in dict` is
  `Option.isSome`, and Python truthiness of an optional string
  (`if d.get(k):`) is `truthyOptStr`.
* The browser/LLM side effects are external capabilities: the extractor is
  modelled by the pure record it serialises on each path, and the per-link
  outcome of `content_extractor._arun` + `json.loads` in the aggregation loop
  is an input (`Outcome`) to the loop.
-/

namespace CrewAi

abbrev Str := List Char

/-- Python `str` truthiness of an optional string value:
`d.get(k)` is falsy when the key is absent or the value is `""`. -/
def truthyOptStr : Option Str → Bool
  | none => false
  | some s => !s.isEmpty

/-- The ASCII characters matched by Python's `\s` regex class
(`' '`, `'\t'`, `'\n'`, `'\r'`, `'\x0b'`, `'\x0c'`). -/
def pyIsSpace (c : Char) : Bool :=
  c == ' ' || c == '\t' || c == '\n' || c == '\r' || c == '\x0b' || c == '\x0c'

/-- Collapse every maximal run of characters satisfying `p` into the single
character `r`; `b` records whether the previous character was in a run.
`collapseRuns p r` with `b = false` models `re.sub(p+, r, s)`. -/
def collapseAux (p : Char → Bool) (r : Char) : Bool → List Char → List Char
  | _, [] => []
  | b, c :: cs =>
    if p c then
      if b then collapseAux p r true cs else r :: collapseAux p r true cs
    else
      c :: collapseAux p r false cs

def collapseRuns (p : Char → Bool) (r : Char) (l : List Char) : List Char :=
  collapseAux p r false l

/-- Python `str.strip()`: drop leading and trailing whitespace. -/
def pyStrip (l : Str) : Str :=
  ((l.dropWhile pyIsSpace).reverse.dropWhile pyIsSpace).reverse

/-- The content clean-up of `WebContentExtractor._arun`
(webextractor.py lines 39-41):
`re.sub(r'\n+', '\n', ...)`, then `re.sub(r'\s+', ' ', ...)`, then `.strip()`. -/
def cleanContent (raw : Str) : Str :=
  pyStrip (collapseRuns pyIsSpace ' ' (collapseRuns (fun c => c == '\n') '\n' raw))

/-- An extraction/aggregation record: the dict schema flowing through
`run_workflow`.  Each field is `some`/`none` according to whether the key is
present.  `status` appears in no dict the code ever builds (it is part of the
spec's data model only), so every record the model constructs leaves it
`none`. -/
structure ExtRec where
  url : Option Str := none
  title : Option Str := none
  meta_description : Option Str := none
  content : Option Str := none
  content_length : Option Nat := none
  extracted_at : Option Str := none
  error : Option Str := none
  search_title : Option Str := none
  domain : Option Str := none
  search_rank : Option Nat := none
  status : Option Str := none
  deriving DecidableEq

/-- The JSON object serialised on the success path of
`WebContentExtractor._arun` (webextractor.py lines 54-61): the cleaned body
text truncated to 10000 characters is stored as `content`, while
`content_length` is the length of the untruncated cleaned text. -/
def extractSuccess (url raw title meta ts : Str) : ExtRec :=
  let content := cleanContent raw
  { url := some url
    title := some title
    meta_description := some meta
    content := some (content.take 10000)
    content_length := some content.length
    extracted_at := some ts }

/-- The JSON object serialised on the failure path of
`WebContentExtractor._arun` (webextractor.py lines 63-69): only `url`,
`error` and `extracted_at` keys. -/
def extractFailure (url err ts : Str) : ExtRec :=
  { url := some url
    error := some err
    extracted_at := some ts }

/-! ### Search provider (googlesearch.py) -/

/-- Does `l` start with `p`?  Python `str.startswith`. -/
def strStarts : List Char → List Char → Bool
  | _, [] => true
  | [], _ :: _ => false
  | c :: cs, p :: ps => c == p && strStarts cs ps

/-- Does `needle` occur as a contiguous substring of `haystack`?
Python `needle in haystack`. -/
def occursIn (needle : List Char) : List Char → Bool
  | [] => strStarts [] needle
  | c :: cs => strStarts (c :: cs) needle || occursIn needle cs

/-- The part of the string after its first `"//"`, if any. -/
def afterSlashes : List Char → Option (List Char)
  | [] => none
  | '/' :: '/' :: rest => some rest
  | _ :: cs => afterSlashes cs

/-- `urllib.parse.urlparse(href).netloc`, modelled for the absolute URLs the
search DOM yields: the authority is what follows `"//"` up to the next
`'/'`, `'?'` or `'#'`; a URL with no `"//"` has an empty netloc. -/
def netloc (u : Str) : Str :=
  match afterSlashes u with
  | some rest => rest.takeWhile (fun c => !(c == '/' || c == '?' || c == '#'))
  | none => []

/-- One DOM search result (`div.MjjYud`) as the tool reads it: `href` is the
link's attribute when an `a[href]` element was found (`none` models both a
missing element and a `None` attribute), `title` the `h3` text (empty when
absent). -/
structure Candidate where
  href : Option Str
  title : Str
  deriving DecidableEq

/-- A search-result record `{url, title, domain}` (googlesearch.py 47-51). -/
structure Link where
  url : Str
  title : Str
  domain : Str
  deriving DecidableEq

/-- The filter of googlesearch.py line 46:
`if href and not href.startswith('/search') and not 'google.com' in href`. -/
def keepHref (h : Str) : Bool :=
  !h.isEmpty && !strStarts h "/search".data && !occursIn "google.com".data h

/-- One iteration of the link-collection loop of `GoogleSearchTool._arun`
(lines 39-51): the link appended for this candidate, if any. -/
def candLink (c : Candidate) : Option Link :=
  match c.href with
  | none => none
  | some h => if keepHref h then some ⟨h, c.title, netloc h⟩ else none

/-- The `links` list collected by `GoogleSearchTool._arun` (lines 36-51). -/
def buildLinks (cands : List Candidate) : List Link :=
  cands.filterMap candLink

/-- `GoogleSearchTool._arun` as a function of what the browser session
yielded: either the DOM candidates (`Except.ok`), or any raised failure
(`Except.error`), in which case the `except` branch returns `[]`
(lines 56-60).  On success the kept links are capped at 20. -/
def searchRun : Except Str (List Candidate) → List Link
  | .error _ => []
  | .ok cands => (buildLinks cands).take 20

/-! ### Aggregation loop (main.py `run_workflow`, lines 163-188) -/

/-- What one iteration of the extraction loop observed for its link: the
parsed extractor record (`ok` — covering both the extractor's success and
failure JSON), or an exception caught by the `except` branch (`exn`). -/
inductive Outcome where
  | ok (r : ExtRec)
  | exn (msg : Str)

/-- Lines 171-173: merge the search metadata into the parsed record. -/
def annotate (link : Link) (i : Nat) (c : ExtRec) : ExtRec :=
  { c with
    search_title := some link.title
    domain := some link.domain
    search_rank := some (i + 1) }

/-- Lines 179-185: the failure-shaped record substituted when the extraction
of link `i` raised. -/
def exnRecord (link : Link) (i : Nat) (msg : Str) : ExtRec :=
  { url := some link.url
    domain := some link.domain
    search_title := some link.title
    search_rank := some (i + 1)
    error := some msg }

/-- The body of iteration `i` of the loop: exactly one record is appended
per link, on either path. -/
def processLink (i : Nat) (link : Link) (o : Outcome) : ExtRec :=
  match o with
  | .ok r => annotate link i r
  | .exn m => exnRecord link i m

def contentDataAux (eta : Nat → Outcome) : Nat → List Link → List ExtRec
  | _, [] => []
  | i, l :: ls => processLink i l (eta i) :: contentDataAux eta (i + 1) ls

/-- The `content_data` list produced by the loop, given the per-index
extraction outcomes `eta`. -/
def contentData (links : List Link) (eta : Nat → Outcome) : List ExtRec :=
  contentDataAux eta 0 links

/-! ### Derived statistics (main.py lines 194-212) -/

/-- Line 194: `[c for c in content_data if 'content' in c and not c.get('error')]`. -/
def successfulExtractions (cd : List ExtRec) : List ExtRec :=
  cd.filter fun c => c.content.isSome && !truthyOptStr c.error

/-- Line 195: `[c for c in content_data if c.get('error')]`. -/
def failedExtractions (cd : List ExtRec) : List ExtRec :=
  cd.filter fun c => truthyOptStr c.error

/-- Line 197: sum of `c.get('content_length', 0)` over the successes. -/
def totalContentLength (cd : List ExtRec) : Nat :=
  ((successfulExtractions cd).map fun c => c.content_length.getD 0).sum

/-- Line 198: `total / len(successes) if successes else 0` — the division is
guarded by the truthiness of the list. -/
def avgContentLength (cd : List ExtRec) : ℚ :=
  if successfulExtractions cd = [] then 0
  else (totalContentLength cd : ℚ) / ((successfulExtractions cd).length : ℚ)

/-- One `domain_stats` entry value (lines 205-209). -/
structure DStat where
  count : Nat
  total_length : Nat
  pages : List Str
  deriving DecidableEq

/-- Line 203: `content.get('domain', 'unknown')`. -/
def domainKey (c : ExtRec) : Str :=
  c.domain.getD "unknown".data

def containsKey : List (Str × DStat) → Str → Bool
  | [], _ => false
  | e :: rest, d => if e.1 = d then true else containsKey rest d

/-- Lines 210-212 applied to the entry of domain `d` (keys are unique, so
updating the first matching entry models the Python dict update). -/
def bumpEntry (d : Str) (c : ExtRec) : List (Str × DStat) → List (Str × DStat)
  | [] => []
  | e :: rest =>
    if e.1 = d then
      (e.1, { count := e.2.count + 1
              total_length := e.2.total_length + c.content_length.getD 0
              pages := e.2.pages ++ [c.title.getD "Untitled".data] }) :: rest
    else e :: bumpEntry d c rest

/-- One iteration of the `for content in successful_extractions` loop
(lines 202-212): initialise the domain's entry if absent, then update it. -/
def updStats (stats : List (Str × DStat)) (c : ExtRec) : List (Str × DStat) :=
  let d := domainKey c
  let stats' := if containsKey stats d then stats else stats ++ [(d, ⟨0, 0, []⟩)]
  bumpEntry d c stats'

/-- The `domain_stats` mapping, as the insertion-ordered association list the
loop builds from the successful records. -/
def domainStats (cd : List ExtRec) : List (Str × DStat) :=
  (successfulExtractions cd).foldl updStats []

def sumCounts : List (Str × DStat) → Nat
  | [] => 0
  | e :: rest => e.2.count + sumCounts rest

/-- Total `count` recorded under key `d` (the single entry's count, since
keys are unique). -/
def statCount (d : Str) : List (Str × DStat) → Nat
  | [] => 0
  | e :: rest => (if e.1 = d then e.2.count else 0) + statCount d rest

/-- The successful records sharing domain key `d`. -/
def matchingSuccesses (cd : List ExtRec) (d : Str) : List ExtRec :=
  (successfulExtractions cd).filter fun c => decide (domainKey c = d)

/-! ### Tabular report rows (main.py lines 218-232) -/

/-- One Excel row (the dict built per record at lines 220-232).
`search_rank` is the raw `search_rank` value (`none` renders as `'N/A'`);
`content_length` is `content.get('content_length', 0)`; the remaining string
cells carry their `'N/A'` defaults already substituted, exactly as the code
places them in the row. -/
structure XRow where
  search_rank : Option Nat
  domain : Str
  url : Str
  search_title : Str
  page_title : Str
  meta_description : Str
  content_length : Nat
  content_preview : Str
  status : Str
  error : Str
  extracted_at : Str
  deriving DecidableEq

/-- Line 228: `content.get('content', '')[:500] + '...' if content.get('content') else 'N/A'`. -/
def contentPreviewOf (c : ExtRec) : Str :=
  if truthyOptStr c.content then (c.content.getD []).take 500 ++ "...".data
  else "N/A".data

/-- Line 229: `'Success' if content.get('content') else 'Failed'`. -/
def statusOf (c : ExtRec) : Str :=
  if truthyOptStr c.content then "Success".data else "Failed".data

def toRow (c : ExtRec) : XRow :=
  { search_rank := c.search_rank
    domain := c.domain.getD "N/A".data
    url := c.url.getD "N/A".data
    search_title := c.search_title.getD "N/A".data
    page_title := c.title.getD "N/A".data
    meta_description := c.meta_description.getD "N/A".data
    content_length := c.content_length.getD 0
    content_preview := contentPreviewOf c
    status := statusOf c
    error := c.error.getD "N/A".data
    extracted_at := c.extracted_at.getD "N/A".data }

/-- The `excel_data` row list (lines 218-232). -/
def excelData (cd : List ExtRec) : List XRow :=
  cd.map toRow

/-- Re-parsing the rendered table: total number of rows. -/
def parsedTotal (rows : List XRow) : Nat :=
  rows.length

/-- Re-parsing the rendered table: rows whose Status cell reads `Success`. -/
def parsedSuccessCount (rows : List XRow) : Nat :=
  (rows.filter fun r => r.status == "Success".data).length

/-- Re-parsing the rendered table: rows whose Status cell reads `Failed`. -/
def parsedFailedCount (rows : List XRow) : Nat :=
  (rows.filter fun r => r.status == "Failed".data).length

/-! ### Narrative report data (main.py lines 241-251 and 363-381) -/

/-- The `research_data` dict assembled at lines 241-251.  (It carries no
`content_data` key; `successful_extractions` / `failed_extractions` are the
counts, and `top_contents` is `successful_extractions[:5]`.) -/
structure ResearchData where
  search_query : Str
  execution_date : Str
  total_links : Nat
  successful_extractions : Nat
  failed_extractions : Nat
  total_content_length : Nat
  avg_content_length : ℚ
  domain_stats : List (Str × DStat)
  top_contents : List ExtRec
  deriving DecidableEq

def researchData (q ts : Str) (links : List Link) (cd : List ExtRec) : ResearchData :=
  { search_query := q
    execution_date := ts
    total_links := links.length
    successful_extractions := (successfulExtractions cd).length
    failed_extractions := (failedExtractions cd).length
    total_content_length := totalContentLength cd
    avg_content_length := avgContentLength cd
    domain_stats := domainStats cd
    top_contents := (successfulExtractions cd).take 5 }

/-- Line 380: `content.get('content', '')[:500] + '...' if content.get('content')
else 'Content not available'`. -/
def mdPreviewOf (c : ExtRec) : Str :=
  if truthyOptStr c.content then (c.content.getD []).take 500 ++ "...".data
  else "Content not available".data

/-- The fields `_generate_markdown_report` writes for entry `i` of the
Detailed Analysis section (lines 363-381): heading number `i+1`, title,
domain, URL, content length, search rank, and the content preview. -/
structure MdEntry where
  heading : Nat
  title : Str
  domain : Str
  url : Str
  content_length : Nat
  search_rank : Option Nat
  preview : Str
  deriving DecidableEq

def mdEntryOf (i : Nat) (c : ExtRec) : MdEntry :=
  { heading := i + 1
    title := c.title.getD "Untitled".data
    domain := c.domain.getD "N/A".data
    url := c.url.getD "N/A".data
    content_length := c.content_length.getD 0
    search_rank := c.search_rank
    preview := mdPreviewOf c }

def mdDetailedAux : Nat → List ExtRec → List MdEntry
  | _, [] => []
  | i, c :: cs => mdEntryOf i c :: mdDetailedAux (i + 1) cs

/-- The Detailed Analysis section of the narrative report, one entry per
element of `research_data['top_contents']` in order (lines 363-381). -/
def mdDetailedEntries (tops : List ExtRec) : List MdEntry :=
  mdDetailedAux 0 tops

/-! ### The workflow (main.py `run_workflow`) -/

/-- What a completed run hands to the two report writers. -/
structure RunOutput where
  excelRows : List XRow
  research : ResearchData
  deriving DecidableEq

/-- Result of `run_workflow`: lines 153-155 return early — before any
extraction and before either report is generated — when the search produced
no links (`if not len(links)`); otherwise the run reaches the report stage
with the aggregated data. -/
inductive WorkflowResult where
  | noResults
  | completed (out : RunOutput)
  deriving DecidableEq

def runWorkflow (q ts : Str) (links : List Link) (eta : Nat → Outcome) :
    WorkflowResult :=
  if links.length = 0 then .noResults
  else
    let cd := contentData links eta
    .completed { excelRows := excelData cd, research := researchData q ts links cd }

/-- The report inputs a run produced: `none` exactly when the run halted on
the no-results path, so no tabular or narrative report is written. -/
def reportsProduced : WorkflowResult → Option RunOutput
  | .noResults => none
  | .completed out => some out

/-! ### Helper lemmas -/

theorem isSome_of_truthy {o : Option Str} (h : truthyOptStr o = true) :
    o.isSome = true := by
  cases o with
  | none => simp [truthyOptStr] at h
  | some s => rfl

theorem processLink_search_rank (i : Nat) (l : Link) (o : Outcome) :
    (processLink i l o).search_rank = some (i + 1) := by
  cases o <;> rfl

theorem processLink_domain (i : Nat) (l : Link) (o : Outcome) :
    (processLink i l o).domain = some l.domain := by
  cases o <;> rfl

theorem processLink_search_title (i : Nat) (l : Link) (o : Outcome) :
    (processLink i l o).search_title = some l.title := by
  cases o <;> rfl

theorem contentDataAux_length (eta : Nat → Outcome) (i : Nat) (ls : List Link) :
    (contentDataAux eta i ls).length = ls.length := by
  induction ls generalizing i with
  | nil => rfl
  | cons l ls ih => simp [contentDataAux, ih]

theorem contentDataAux_ranks (eta : Nat → Outcome) (ls : List Link) (i : Nat) :
    (contentDataAux eta i ls).map (fun c => c.search_rank)
      = (List.range' (i + 1) ls.length).map some := by
  induction ls generalizing i with
  | nil => rfl
  | cons l ls ih =>
    simp [contentDataAux, List.range', processLink_search_rank, ih]

theorem contentDataAux_domains (eta : Nat → Outcome) (ls : List Link) (i : Nat) :
    (contentDataAux eta i ls).map (fun c => c.domain)
      = ls.map (fun l => some l.domain) := by
  induction ls generalizing i with
  | nil => rfl
  | cons l ls ih => simp [contentDataAux, processLink_domain, ih]

theorem contentDataAux_titles (eta : Nat → Outcome) (ls : List Link) (i : Nat) :
    (contentDataAux eta i ls).map (fun c => c.search_title)
      = ls.map (fun l => some l.title) := by
  induction ls generalizing i with
  | nil => rfl
  | cons l ls ih => simp [contentDataAux, processLink_search_title, ih]

/-- C1: every run of the aggregation loop appends exactly one record per
search result, so the two lists have the same length, the `search_rank`
fields are exactly `1..N` in input order, and each record carries its own
link's domain and search title. -/
theorem extraction_records_align_with_search_results
    (links : List Link) (eta : Nat → Outcome) :
    (contentData links eta).length = links.length ∧
    (contentData links eta).map (fun c => c.search_rank)
      = (List.range' 1 links.length).map some ∧
    (contentData links eta).map (fun c => c.domain)
      = links.map (fun l => some l.domain) ∧
    (contentData links eta).map (fun c => c.search_title)
      = links.map (fun l => some l.title) :=
  ⟨contentDataAux_length eta 0 links, contentDataAux_ranks eta links 0,
   contentDataAux_domains eta links 0, contentDataAux_titles eta links 0⟩

/-! ### Clean-up of an all-letter text (for the truncation gap) -/

theorem collapseAux_replicate (p : Char → Bool) (r : Char) (h : p 'a' = false)
    (b : Bool) (n : Nat) :
    collapseAux p r b (List.replicate n 'a') = List.replicate n 'a' := by
  induction n generalizing b with
  | zero => rfl
  | succ n ih => simp [List.replicate_succ, collapseAux, h, ih]

theorem dropWhile_replicate (p : Char → Bool) (h : p 'a' = false) (n : Nat) :
    List.dropWhile p (List.replicate n 'a') = List.replicate n 'a' := by
  cases n with
  | zero => rfl
  | succ n => simp [List.replicate_succ, List.dropWhile, h]

theorem pyStrip_replicate (n : Nat) :
    pyStrip (List.replicate n 'a') = List.replicate n 'a' := by
  have h : pyIsSpace 'a' = false := by decide
  simp [pyStrip, dropWhile_replicate pyIsSpace h, List.reverse_replicate]

theorem cleanContent_replicate (n : Nat) :
    cleanContent (List.replicate n 'a') = List.replicate n 'a' := by
  unfold cleanContent collapseRuns
  rw [collapseAux_replicate (fun c => c == '\n') '\n' (by decide),
    collapseAux_replicate pyIsSpace ' ' (by decide), pyStrip_replicate]

/-- C4: every successful extraction stores the cleaned text truncated to the
10000-character safety bound while `content_length` is the untruncated
cleaned length; the stored content never exceeds 10000 characters, and on a
10001-character page the recorded length strictly exceeds the stored
content's length. -/
theorem content_truncation_and_length :
    (∀ url raw title meta ts : Str,
      (extractSuccess url raw title meta ts).content
          = some ((cleanContent raw).take 10000) ∧
      (extractSuccess url raw title meta ts).content_length
          = some (cleanContent raw).length ∧
      ((extractSuccess url raw title meta ts).content.getD []).length ≤ 10000) ∧
    ((extractSuccess [] (List.replicate 10001 'a') [] [] []).content.getD []).length
      < (extractSuccess [] (List.replicate 10001 'a') [] [] []).content_length.getD 0 := by
  constructor
  · intro url raw title meta ts
    refine ⟨rfl, rfl, ?_⟩
    simp [extractSuccess, List.length_take]
  · have h1 : ∀ raw : Str,
        (extractSuccess [] raw [] [] []).content.getD [] = (cleanContent raw).take 10000 :=
      fun _ => rfl
    have h2 : ∀ raw : Str,
        (extractSuccess [] raw [] [] []).content_length.getD 0 = (cleanContent raw).length :=
      fun _ => rfl
    rw [h1, h2, cleanContent_replicate, List.length_take, List.length_replicate]
    omega

/-- C5 as stated is false: the failure-path record of
`WebContentExtractor._arun` carries no `status` key at all (only `url`,
`error`, `extracted_at`), so at the concrete failed extraction with error
`"timeout"` the record does not satisfy `status = failed` together with the
error/no-content shape. -/
theorem failed_record_status_field_cex :
    ¬ ((extractFailure "https://b.com/x".data "timeout".data "t1".data).status
          = some "failed".data ∧
       (extractFailure "https://b.com/x".data "timeout".data "t1".data).error
          = some "timeout".data ∧
       (extractFailure "https://b.com/x".data "timeout".data "t1".data).content
          = none) := by
  decide

/-- C5 amended: every failed extraction record carries the human-readable
error string and no content field; it carries no status field at all — the
`Failed` status is only derived downstream from the absence of content. -/
theorem failed_record_shape (url err ts : Str) :
    (extractFailure url err ts).error = some err ∧
    (extractFailure url err ts).content = none ∧
    (extractFailure url err ts).status = none ∧
    statusOf (extractFailure url err ts) = "Failed".data :=
  ⟨rfl, rfl, rfl, rfl⟩

/-- C8: when the search provider returns zero results, `run_workflow`
returns at line 155 — before any extraction — and neither the tabular nor
the narrative report is produced. -/
theorem empty_search_halts_without_report (q ts : Str) (eta : Nat → Outcome)
    (links : List Link) (h : links = []) :
    runWorkflow q ts links eta = .noResults ∧
    reportsProduced (runWorkflow q ts links eta) = none := by
  subst h
  exact ⟨rfl, rfl⟩

theorem empty_search_halts_without_report_witness :
    ([] : List Link) = [] ∧
    (runWorkflow "q".data "t".data [] (fun _ => .exn []) = .noResults ∧
     reportsProduced (runWorkflow "q".data "t".data [] (fun _ => .exn [])) = none) :=
  ⟨rfl, empty_search_halts_without_report "q".data "t".data (fun _ => .exn []) [] rfl⟩

/-- C9: in both renderers the content-preview cell is never longer than 500
characters plus the ellipsis marker (`"..."`), whatever the record holds. -/
theorem content_preview_bounded (c : ExtRec) :
    (contentPreviewOf c).length ≤ 500 + "...".data.length ∧
    (mdPreviewOf c).length ≤ 500 + "...".data.length := by
  constructor
  · unfold contentPreviewOf
    split
    · simp [List.length_take]
    · decide
  · unfold mdPreviewOf
    split
    · simp [List.length_take]
    · decide

/-! ### A concrete two-record run (one success, one failure) -/

def linksTwo : List Link :=
  [⟨"https://a.com/page".data, "A page".data, "a.com".data⟩,
   ⟨"https://b.com/x".data, "B page".data, "b.com".data⟩]

/-- Outcomes of the two extractions: rank 1 succeeds with body text
`"Hello world"`, rank 2 comes back as the extractor's failure record with
error `"timeout"`. -/
def etaTwo : Nat → Outcome := fun n =>
  if n = 0 then
    .ok (extractSuccess "https://a.com/page".data "Hello world".data
      "A title".data "desc".data "t0".data)
  else
    .ok (extractFailure "https://b.com/x".data "timeout".data "t1".data)

/-- C3: for the two-record run, the rendered table has exactly two rows; the
first reads Status `Success` with the content preview showing `Hello world`
(the renderer always appends its ellipsis marker), rank 1 and domain
`a.com`; the second reads Status `Failed` with Error `timeout`, rank 2 and
domain `b.com`. -/
theorem two_record_report_table_rows :
    (excelData (contentData linksTwo etaTwo)).length = 2 ∧
    (excelData (contentData linksTwo etaTwo)).map
        (fun r => (r.status, r.content_preview, r.search_rank, r.domain, r.error))
      = [("Success".data, ("Hello world".data ++ "...".data), some 1,
          "a.com".data, "N/A".data),
         ("Failed".data, "N/A".data, some 2, "b.com".data, "timeout".data)] := by
  constructor
  · rfl
  · decide

/-! ### Search provider contract -/

theorem buildLinks_urls_sublist (cands : List Candidate) :
    List.Sublist ((buildLinks cands).map Link.url) (cands.filterMap Candidate.href) := by
  induction cands with
  | nil => simp [buildLinks]
  | cons c cs ih =>
    cases hh : c.href with
    | none => simpa [buildLinks, List.filterMap_cons, candLink, hh] using ih
    | some h =>
      by_cases hk : keepHref h = true
      · simpa [buildLinks, List.filterMap_cons, candLink, hh, hk] using ih.cons₂ h
      · simpa [buildLinks, List.filterMap_cons, candLink, hh, hk] using ih.cons h

theorem mem_buildLinks_kept {cands : List Candidate} {l : Link}
    (h : l ∈ buildLinks cands) : keepHref l.url = true := by
  rcases List.mem_filterMap.mp h with ⟨c, _, hc⟩
  cases hh : c.href with
  | none => simp [candLink, hh] at hc
  | some u =>
    simp only [candLink, hh] at hc
    by_cases hk : keepHref u = true
    · rw [if_pos hk] at hc
      cases hc
      exact hk
    · rw [if_neg hk] at hc
      cases hc

/-- C7: for every run of the search tool the returned list has at most 20
links, each returned URL is nonempty, does not start with `/search` and does
not contain `google.com` (so self-referential/internal links are excluded),
the returned URLs appear in the candidates' relevance order (a sublist of
the candidate hrefs), and any failure yields the empty list instead of an
exception. -/
theorem search_results_bounded_filtered_ordered :
    (∀ cands : List Candidate, (searchRun (.ok cands)).length ≤ 20) ∧
    (∀ (cands : List Candidate) (l : Link), l ∈ searchRun (.ok cands) →
      l.url ≠ [] ∧ strStarts l.url "/search".data = false ∧
      occursIn "google.com".data l.url = false) ∧
    (∀ cands : List Candidate,
      List.Sublist ((searchRun (.ok cands)).map Link.url)
        (cands.filterMap Candidate.href)) ∧
    (∀ e : Str, searchRun (.error e) = []) := by
  refine ⟨?_, ?_, ?_, ?_⟩
  · intro cands
    exact List.length_take_le 20 _
  · intro cands l hl
    have hmem : l ∈ buildLinks cands := List.take_subset 20 _ hl
    have hk := mem_buildLinks_kept hmem
    unfold keepHref at hk
    simp only [Bool.and_eq_true, Bool.not_eq_true'] at hk
    obtain ⟨⟨h1, h2⟩, h3⟩ := hk
    refine ⟨?_, h2, h3⟩
    intro hnil
    rw [hnil] at h1
    exact absurd h1 (by decide)
  · intro cands
    have e1 : (searchRun (.ok cands)).map Link.url
        = ((buildLinks cands).map Link.url).take 20 := by
      rw [show searchRun (.ok cands) = (buildLinks cands).take 20 from rfl,
        List.map_take]
    rw [e1]
    exact (List.take_sublist 20 _).trans (buildLinks_urls_sublist cands)
  · intro e
    rfl

def candsOne : List Candidate := [⟨some "https://x.com/a".data, "T".data⟩]

def linkOne : Link := ⟨"https://x.com/a".data, "T".data, "x.com".data⟩

theorem search_results_witness :
    linkOne ∈ searchRun (.ok candsOne) ∧
    (linkOne.url ≠ [] ∧ strStarts linkOne.url "/search".data = false ∧
     occursIn "google.com".data linkOne.url = false) :=
  ⟨by decide,
   search_results_bounded_filtered_ordered.2.1 candsOne linkOne (by decide)⟩

/-! ### Round-tripping the tabular report -/

/-- A record is well-formed when it either holds nonempty content and no
truthy error, or no content key and a nonempty error — the two shapes the
extractor emits whenever its cleaned text and error messages are nonempty. -/
def wfRecord (c : ExtRec) : Bool :=
  (truthyOptStr c.content && !truthyOptStr c.error) ||
  (c.content.isNone && truthyOptStr c.error)

/-- A record whose `content` key holds the empty string: counted as a
successful extraction by line 194, yet rendered with Status `Failed` by
line 229. -/
def cdEmptyContent : List ExtRec := [{ content := some ([] : Str) }]

/-- C2 as stated is false: at the one-record aggregate whose record carries
`content = ""`, re-parsing the rendered table gives 0 `Success` rows and
1 `Failed` row, while the aggregate counts 1 successful and 0 failed
extractions. -/
theorem report_roundtrip_counts_cex :
    ¬ (parsedTotal (excelData cdEmptyContent) = cdEmptyContent.length ∧
       parsedSuccessCount (excelData cdEmptyContent)
          = (successfulExtractions cdEmptyContent).length ∧
       parsedFailedCount (excelData cdEmptyContent)
          = (failedExtractions cdEmptyContent).length) := by
  decide

theorem roundtrip_counts_aux :
    ∀ cd : List ExtRec, (∀ c ∈ cd, wfRecord c = true) →
      parsedSuccessCount (excelData cd) = (successfulExtractions cd).length ∧
      parsedFailedCount (excelData cd) = (failedExtractions cd).length := by
  intro cd
  induction cd with
  | nil => exact fun _ => ⟨rfl, rfl⟩
  | cons c cs ih =>
    intro h
    have hc : wfRecord c = true := h c (List.mem_cons_self c cs)
    obtain ⟨ih1, ih2⟩ := ih fun x hx => h x (List.mem_cons_of_mem c hx)
    unfold wfRecord at hc
    simp only [Bool.or_eq_true, Bool.and_eq_true, Bool.not_eq_true',
      Option.isNone_iff_eq_none] at hc
    simp only [parsedSuccessCount, parsedFailedCount, excelData,
      successfulExtractions, failedExtractions, List.map_cons,
      List.filter_cons] at ih1 ih2 ⊢
    rcases hc with ⟨hct, hef⟩ | ⟨hcn, het⟩
    · have hsome := isSome_of_truthy hct
      have hst : statusOf c = "Success".data := by simp [statusOf, hct]
      simp only [toRow, hst, hsome, hef, Bool.not_false, Bool.and_self,
        show ("Success".data == "Success".data) = true by decide,
        show ("Success".data == "Failed".data) = false by decide,
        if_true, if_false, List.length_cons]
      simp only [show ((false : Bool) = true) = False from eq_false (by decide),
        show ((true : Bool) = true) = True from eq_true rfl, if_true, if_false]
      omega
    · have hct' : truthyOptStr c.content = false := by rw [hcn]; rfl
      have hst : statusOf c = "Failed".data := by simp [statusOf, hct']
      simp only [toRow, hst, hcn, het, Option.isSome_none, Bool.false_and,
        show ("Failed".data == "Success".data) = false by decide,
        show ("Failed".data == "Failed".data) = true by decide,
        if_true, if_false, List.length_cons]
      simp only [show ((false : Bool) = true) = False from eq_false (by decide),
        show ((true : Bool) = true) = True from eq_true rfl, if_true, if_false]
      omega

/-- C2 amended: rendering always preserves the total row count; and for
aggregates whose records are all well-formed (nonempty content with no
truthy error, or no content with a nonempty error), re-parsing the table
also reproduces the success and failure counts. -/
theorem report_roundtrip_counts_of_wellformed (cd : List ExtRec)
    (h : ∀ c ∈ cd, wfRecord c = true) :
    parsedTotal (excelData cd) = cd.length ∧
    parsedSuccessCount (excelData cd) = (successfulExtractions cd).length ∧
    parsedFailedCount (excelData cd) = (failedExtractions cd).length :=
  ⟨by simp [parsedTotal, excelData], (roundtrip_counts_aux cd h).1,
   (roundtrip_counts_aux cd h).2⟩

/-- One well-formed success and one well-formed failure. -/
def cdWellFormed : List ExtRec :=
  [{ content := some "Hello".data }, { error := some "timeout".data }]

theorem report_roundtrip_counts_witness :
    (cdWellFormed.all fun c => wfRecord c) = true ∧
    (parsedTotal (excelData cdWellFormed) = cdWellFormed.length ∧
     parsedSuccessCount (excelData cdWellFormed)
        = (successfulExtractions cdWellFormed).length ∧
     parsedFailedCount (excelData cdWellFormed)
        = (failedExtractions cdWellFormed).length) :=
  ⟨by decide, report_roundtrip_counts_of_wellformed cdWellFormed (by decide)⟩

/-! ### Domain statistics accounting -/

theorem containsKey_append_self (s : List (Str × DStat)) (d : Str) (z : DStat) :
    containsKey (s ++ [(d, z)]) d = true := by
  induction s with
  | nil => simp [containsKey]
  | cons e rest ih =>
    by_cases he : e.1 = d <;> simp [containsKey, he, ih]

theorem sumCounts_append (s t : List (Str × DStat)) :
    sumCounts (s ++ t) = sumCounts s + sumCounts t := by
  induction s with
  | nil => simp [sumCounts]
  | cons e rest ih => simp [sumCounts, ih]; omega

theorem sumCounts_bumpEntry (d : Str) (c : ExtRec) (s : List (Str × DStat))
    (h : containsKey s d = true) :
    sumCounts (bumpEntry d c s) = sumCounts s + 1 := by
  induction s with
  | nil => simp [containsKey] at h
  | cons e rest ih =>
    by_cases he : e.1 = d
    · simp [bumpEntry, he, sumCounts]
      omega
    · have h' : containsKey rest d = true := by
        simpa [containsKey, he] using h
      simp [bumpEntry, he, sumCounts, ih h']
      omega

theorem sumCounts_updStats (s : List (Str × DStat)) (c : ExtRec) :
    sumCounts (updStats s c) = sumCounts s + 1 := by
  unfold updStats
  by_cases h : containsKey s (domainKey c) = true
  · simp only [h, if_true]
    exact sumCounts_bumpEntry _ _ _ h
  · simp only [h, if_false, Bool.false_eq_true]
    rw [sumCounts_bumpEntry _ _ _ (containsKey_append_self s (domainKey c) ⟨0, 0, []⟩),
      sumCounts_append]
    simp [sumCounts]

theorem sumCounts_foldl (l : List ExtRec) (s : List (Str × DStat)) :
    sumCounts (l.foldl updStats s) = sumCounts s + l.length := by
  induction l generalizing s with
  | nil => simp
  | cons c cs ih =>
    simp only [List.foldl_cons, List.length_cons, ih, sumCounts_updStats]
    omega

theorem statCount_append (d : Str) (s t : List (Str × DStat)) :
    statCount d (s ++ t) = statCount d s + statCount d t := by
  induction s with
  | nil => simp [statCount]
  | cons e rest ih => simp [statCount, ih]; omega

theorem statCount_bumpEntry (d d0 : Str) (c : ExtRec) (s : List (Str × DStat))
    (h : containsKey s d0 = true) :
    statCount d (bumpEntry d0 c s) = statCount d s + (if d0 = d then 1 else 0) := by
  induction s with
  | nil => simp [containsKey] at h
  | cons e rest ih =>
    by_cases he : e.1 = d0
    · subst he
      by_cases hd : e.1 = d
      · simp [bumpEntry, statCount, hd]
        omega
      · simp [bumpEntry, statCount, hd]
    · have h' : containsKey rest d0 = true := by
        simpa [containsKey, he] using h
      simp [bumpEntry, he, statCount, ih h']
      omega

theorem statCount_updStats (d : Str) (s : List (Str × DStat)) (c : ExtRec) :
    statCount d (updStats s c) = statCount d s + (if domainKey c = d then 1 else 0) := by
  unfold updStats
  by_cases h : containsKey s (domainKey c) = true
  · simp only [h, if_true]
    exact statCount_bumpEntry _ _ _ _ h
  · simp only [h, if_false, Bool.false_eq_true]
    rw [statCount_bumpEntry _ _ _ _ (containsKey_append_self s (domainKey c) ⟨0, 0, []⟩),
      statCount_append]
    simp [statCount]

theorem statCount_foldl (d : Str) (l : List ExtRec) (s : List (Str × DStat)) :
    statCount d (l.foldl updStats s)
      = statCount d s + (l.filter fun c => decide (domainKey c = d)).length := by
  induction l generalizing s with
  | nil => simp
  | cons c cs ih =>
    by_cases hd : domainKey c = d
    · simp only [List.foldl_cons, List.filter_cons, ih, statCount_updStats]
      simp [hd]
      omega
    · simp only [List.foldl_cons, List.filter_cons, ih, statCount_updStats]
      simp [hd]

/-- C6: `avg_content_length` is `0` whenever no extraction succeeded (the
division at line 198 is guarded by the list's truthiness), each
`domain_stats` entry counts exactly the successful records sharing its
domain key, and the counts over all domains add up to the number of
successful extractions. -/
theorem derived_statistics_guard_and_domain_counts (cd : List ExtRec) :
    (successfulExtractions cd = [] → avgContentLength cd = 0) ∧
    (∀ d : Str, statCount d (domainStats cd) = (matchingSuccesses cd d).length) ∧
    sumCounts (domainStats cd) = (successfulExtractions cd).length := by
  refine ⟨?_, ?_, ?_⟩
  · intro h
    simp [avgContentLength, h]
  · intro d
    have := statCount_foldl d (successfulExtractions cd) []
    simpa [domainStats, matchingSuccesses, statCount] using this
  · have := sumCounts_foldl (successfulExtractions cd) []
    simpa [domainStats, sumCounts] using this

/-- One failure-shaped record: no successful extraction at all. -/
def cdNoSuccess : List ExtRec := [{ error := some "boom".data }]

theorem derived_statistics_witness :
    successfulExtractions cdNoSuccess = [] ∧
    avgContentLength cdNoSuccess = 0 ∧
    statCount "unknown".data (domainStats cdNoSuccess)
      = (matchingSuccesses cdNoSuccess "unknown".data).length ∧
    sumCounts (domainStats cdNoSuccess) = (successfulExtractions cdNoSuccess).length :=
  ⟨by decide,
   (derived_statistics_guard_and_domain_counts cdNoSuccess).1 (by decide),
   (derived_statistics_guard_and_domain_counts cdNoSuccess).2.1 "unknown".data,
   (derived_statistics_guard_and_domain_counts cdNoSuccess).2.2⟩

/-! ### Detailed-analysis section of the narrative report -/

theorem mdDetailedAux_length (i : Nat) (l : List ExtRec) :
    (mdDetailedAux i l).length = l.length := by
  induction l generalizing i with
  | nil => rfl
  | cons c cs ih => simp [mdDetailedAux, ih]

/-- C10: the Detailed Analysis section renders exactly the first
`min 5 S` successful extraction records — `top_contents` is the 5-element
prefix of the successful list, which is itself in search-rank order — one
section entry per record and in order; every listed record has a content
key and no truthy error, so a failed record never appears there. -/
theorem detailed_analysis_top_contents (q ts : Str) (links : List Link)
    (cd : List ExtRec) :
    (researchData q ts links cd).top_contents = (successfulExtractions cd).take 5 ∧
    (researchData q ts links cd).top_contents.length
      = min 5 (successfulExtractions cd).length ∧
    (∃ rest, successfulExtractions cd
      = (researchData q ts links cd).top_contents ++ rest) ∧
    (mdDetailedEntries (researchData q ts links cd).top_contents).length
      = min 5 (successfulExtractions cd).length ∧
    (∀ c ∈ (researchData q ts links cd).top_contents,
      c.content.isSome = true ∧ truthyOptStr c.error = false) := by
  refine ⟨rfl, ?_, ?_, ?_, ?_⟩
  · simp [researchData, List.length_take]
  · exact ⟨(successfulExtractions cd).drop 5,
      (List.take_append_drop 5 (successfulExtractions cd)).symm⟩
  · simp [mdDetailedEntries, mdDetailedAux_length, researchData, List.length_take]
  · intro c hc
    have hmem : c ∈ successfulExtractions cd :=
      List.take_subset 5 (successfulExtractions cd) hc
    have hp := (List.mem_filter.mp hmem).2
    simp only [Bool.and_eq_true, Bool.not_eq_true'] at hp
    exact hp

/-- One successful record in the aggregate list. -/
def recOneSuccess : ExtRec := { content := some "Hi".data, search_rank := some 1 }

def cdOneSuccess : List ExtRec := [recOneSuccess]

theorem detailed_analysis_witness :
    recOneSuccess ∈ (researchData "q".data "t".data [] cdOneSuccess).top_contents ∧
    (recOneSuccess.content.isSome = true ∧ truthyOptStr recOneSuccess.error = false) :=
  ⟨by decide,
   (detailed_analysis_top_contents "q".data "t".data [] cdOneSuccess).2.2.2.2
     recOneSuccess (by decide)⟩

end CrewAi
